import Mathlib

/-!
Shallow embedding of `wgpu-core/src/command/mod.rs`: the resource-usage
trackers, the barrier-insertion routine `insert_barriers`, the command-encoder
lifecycle operations (`finish`, debug markers), the generic command stream
(`BasePass` / `BasePassRef`), and the push-constant clear chunking utility.

Machine integers (`u32`) are modelled as `Nat` with an explicit `% 2^32`
where wrap-around can occur.  Rust panics (`unwrap`, `expect`, out-of-bounds
indexing) are modelled explicitly by an `Outcome.panicked` result or an
`Option`-valued function returning `none`.
-/

set_option maxHeartbeats 1000000

namespace Wgpu

/-- Resource identity: a generation-stamped handle into a resource table,
modelled as (index, epoch). -/
abbrev RId : Type := Nat × Nat

/-- Usage flags of a buffer or texture (`wgt::BufferUsage` / `wgt::TextureUsage`),
modelled as a bitmask. -/
abbrev Usage : Type := Nat

/-- Result of an operation that may also abort: `ok` and `err` mirror Rust's
`Result`, while `panicked` marks a Rust panic (`unwrap` / `expect` /
out-of-bounds indexing). -/
inductive Outcome (ε : Type) (α : Type) where
  | ok (a : α)
  | err (e : ε)
  | panicked
deriving DecidableEq

/-! ### Push-constant clear chunking

Source:
```
const PUSH_CONSTANT_CLEAR_ARRAY: &[u32] = &[0_u32; 64];

fn push_constant_clear<PushFn>(offset: u32, size_bytes: u32, mut push_fn: PushFn)
where
    PushFn: FnMut(u32, &[u32]),
{
    let mut count_words = 0_u32;
    let size_words = size_bytes / 4;
    while count_words < size_words {
        let count_bytes = count_words * 4;
        let size_to_write_words =
            (size_words - count_words).min(PUSH_CONSTANT_CLEAR_ARRAY.len() as u32);
        push_fn(
            offset + count_bytes,
            &PUSH_CONSTANT_CLEAR_ARRAY[0..size_to_write_words as usize],
        );
        count_words += size_to_write_words;
    }
}
```
The caller-supplied sink `push_fn` is reified: the embedding returns the list
of `(byte-offset, word-slice)` calls made, in order. -/

/-- The shared zero source `PUSH_CONSTANT_CLEAR_ARRAY`: 64 zero words. -/
def PUSH_CONSTANT_CLEAR_ARRAY : List Nat := List.replicate 64 0

/-- The `while count_words < size_words` loop of `push_constant_clear`,
made structurally recursive on a `fuel` counter.  Every iteration of the
source loop increases `count_words` by at least one (the `min` is at least
one while the guard holds), so `size_words` iterations always suffice;
`push_constant_clear` below passes exactly that.  Fuel-insensitivity above
this bound is proved in `push_constant_clear_go_fuel`. -/
def push_constant_clear_go (offset size_words : Nat) : Nat → Nat → List (Nat × List Nat)
  | _, 0 => []
  | count_words, fuel + 1 =>
    if count_words < size_words then
      let size_to_write_words := min (size_words - count_words) PUSH_CONSTANT_CLEAR_ARRAY.length
      ((offset + count_words * 4) % 4294967296,
        PUSH_CONSTANT_CLEAR_ARRAY.take size_to_write_words)
        :: push_constant_clear_go offset size_words (count_words + size_to_write_words) fuel
    else []

/-- The reified `push_constant_clear`: the list of `(byte-offset, zero word
slice)` writes delivered to the sink, in order. -/
def push_constant_clear (offset size_bytes : Nat) : List (Nat × List Nat) :=
  push_constant_clear_go offset (size_bytes / 4) 0 (size_bytes / 4)

/-- Checks that a list of `(byte-offset, word-slice)` writes is contiguous,
non-overlapping and exactly covers the byte range `[start, stop)`: the first
write starts at `start`, each write starts where the previous one ended, and
the last write ends at `stop`. -/
def chainCovers (start stop : Nat) : List (Nat × List Nat) → Bool
  | [] => start == stop
  | (o, s) :: rest => o == start && chainCovers (start + 4 * s.length) stop rest

/-! ### Resource usage trackers

The `track` module (`crate::track::TrackerSet` and its per-category trackers)
is part of this repository but not among the given sources; only its caller
`insert_barriers` is.  The two merge primitives are therefore modelled from
the spec (section 4.2) below. -/

/-- A pending transition produced by `merge_replace`: the resource identity
together with its previously recorded usage (`none` when the resource was
untracked in `base`) and its new usage from `head`. -/
structure PendingTransition where
  id : RId
  usage_old : Option Usage
  usage_new : Usage
deriving DecidableEq

/-- Association-list lookup by key, first match wins. -/
def slookup {κ α : Type} [DecidableEq κ] (k : κ) : List (κ × α) → Option α
  | [] => none
  | p :: rest => if p.1 = k then some p.2 else slookup k rest

/-- Modelled from the spec: `merge_replace` of a hazard-bearing category
(buffers, textures), whose implementation lives in the `track` module, not
among the given sources.  "For every resource present in `head`, compares its
usage against `base`'s recorded usage (absent in base counts as untracked);
where the comparison shows a change requiring synchronization, produces one
pending transition carrying the resource identity and its old/new usage;
where unchanged, produces nothing. `base`'s entry is then overwritten with
`head`'s."  Returns the pending-transition sequence and the updated `base`
map (entries of `head` shadow those of `base`). -/
def merge_replace (base head : List (RId × Usage)) :
    List PendingTransition × List (RId × Usage) :=
  (head.filterMap fun p =>
      if slookup p.1 base = some p.2 then none
      else some ⟨p.1, slookup p.1 base, p.2⟩,
   head ++ base.filter fun p => (slookup p.1 head).isNone)

/-- Modelled from the spec: `merge_extend` of a non-hazard category (views,
bind groups, samplers, compute pipelines, render pipelines, bundles), whose
implementation lives in the `track` module, not among the given sources.
"Performs a set union of resource identities from `head` into `base` ... This
must never fail under correct call sequencing; a failure indicates an internal
tracking bug."  The failure case is an identity clash: the same table index
present on both sides with different epochs (a stale generation — the internal
tracking bug the spec describes).  On success returns the union. -/
def merge_extend (base head : List RId) : Option (List RId) :=
  if ∃ h ∈ head, ∃ b ∈ base, b.1 = h.1 ∧ b.2 ≠ h.2 then none
  else some (base ++ head.filter fun h => decide (h ∉ base))

/-- The `TrackerSet`: one tracker per resource category.  Buffers and textures
carry a usage per identity; the non-hazard categories track membership only. -/
structure TrackerSet where
  buffers : List (RId × Usage)
  textures : List (RId × Usage)
  views : List RId
  bind_groups : List RId
  samplers : List RId
  compute_pipes : List RId
  render_pipes : List RId
  bundles : List RId
deriving DecidableEq

/-- The empty tracker set. -/
def TrackerSet.empty : TrackerSet := ⟨[], [], [], [], [], [], [], []⟩

/-! ### Barrier insertion (`CommandBuffer::insert_barriers`) -/

/-- A backend barrier descriptor (`pending.into_hal(resource)`): the pending
transition resolved against the looked-up resource object, for a buffer or an
image respectively.  The resource object is abstracted to an opaque `Nat`
payload. -/
inductive HalBarrier where
  | buffer (p : PendingTransition) (resource : Nat)
  | image (p : PendingTransition) (resource : Nat)
deriving DecidableEq

/-- A command recorded into a raw backend command buffer
(`hal::command::CommandBuffer`). -/
inductive BackendCmd where
  | pipeline_barrier (stages : Nat) (dependencies : Nat) (barriers : List HalBarrier)
  | begin_debug_marker (label : String) (color : Nat)
  | ins_debug_marker (label : String) (color : Nat)
  | end_debug_marker
deriving DecidableEq

/-- Modelled from the spec: `all_buffer_stages` lives in the `device` module,
not among the given sources — "the union of all stages capable of producing or
consuming buffer memory".  The concrete bit pattern is immaterial to the
claims, which mention only the union of the two masks. -/
def all_buffer_stages : Nat := 0x7f

/-- Modelled from the spec: `all_image_stages` lives in the `device` module,
not among the given sources — "the union of all stages capable of producing or
consuming image memory". -/
def all_image_stages : Nat := 0x5e8

/-- A resource table (`Storage`), mapping a key to an object. -/
abbrev Storage (α : Type) : Type := List (Nat × α)

/-- A resource-object table keyed by generation-stamped identity, as read by
`insert_barriers` through `buffer_guard` / `texture_guard`. -/
abbrev ResourceStorage : Type := List (RId × Nat)

/-- The `Storage` index operator `guard[id]`, which panics (`none`) when the
identity is absent. -/
def ResourceStorage.index (g : ResourceStorage) (i : RId) : Option Nat :=
  slookup i g

/-- The embedding of `CommandBuffer::insert_barriers`.  Runs `merge_replace`
on buffers and textures, `merge_extend` (unwrapped: failure panics, `none`) on
the six non-hazard categories, resolves each pending transition against the
corresponding guard (indexing panics on a missing identity), and then appends
one `pipeline_barrier` command — unconditionally — whose stage mask is
`all_buffer_stages | all_image_stages` and whose barrier list is the buffer
barriers chained with the texture barriers.  Returns the extended raw command
list and the updated `base` tracker set. -/
def insert_barriers (raw : List BackendCmd) (base head : TrackerSet)
    (buffer_guard texture_guard : ResourceStorage) :
    Option (List BackendCmd × TrackerSet) := do
  let bufs := merge_replace base.buffers head.buffers
  let texs := merge_replace base.textures head.textures
  let views ← merge_extend base.views head.views
  let bind_groups ← merge_extend base.bind_groups head.bind_groups
  let samplers ← merge_extend base.samplers head.samplers
  let compute_pipes ← merge_extend base.compute_pipes head.compute_pipes
  let render_pipes ← merge_extend base.render_pipes head.render_pipes
  let bundles ← merge_extend base.bundles head.bundles
  let buffer_barriers ← bufs.1.mapM fun p =>
    (buffer_guard.index p.id).map (HalBarrier.buffer p)
  let texture_barriers ← texs.1.mapM fun p =>
    (texture_guard.index p.id).map (HalBarrier.image p)
  let stages := all_buffer_stages ||| all_image_stages
  some (raw ++ [BackendCmd.pipeline_barrier stages 0 (buffer_barriers ++ texture_barriers)],
    ⟨bufs.2, texs.2, views, bind_groups, samplers, compute_pipes, render_pipes, bundles⟩)

/-! ### Generic command stream (`BasePass` / `BasePassRef`) -/

/-- The borrowed command-stream view `BasePassRef<'a, C>`: slices of the four
arrays.  In the embedding a slice is the list of its elements. -/
structure BasePassRef (C : Type) where
  commands : List C
  dynamic_offsets : List Nat
  string_data : List Nat
  push_constant_data : List Nat
deriving DecidableEq

/-- The owned command stream `BasePass<C>`: the four owned vectors. -/
structure BasePass (C : Type) where
  commands : List C
  dynamic_offsets : List Nat
  string_data : List Nat
  push_constant_data : List Nat
deriving DecidableEq

/-- The constructor `BasePass::new`. -/
def BasePass.new (C : Type) : BasePass C := ⟨[], [], [], []⟩

/-- The conversion `BasePass::from_ref`: deep-copies (`to_vec`) each borrowed
slice into an owned vector. -/
def BasePass.from_ref {C : Type} (base : BasePassRef C) : BasePass C :=
  ⟨base.commands, base.dynamic_offsets, base.string_data, base.push_constant_data⟩

/-- The conversion `BasePass::as_ref`: exposes slices of the four owned
vectors. -/
def BasePass.as_ref {C : Type} (p : BasePass C) : BasePassRef C :=
  ⟨p.commands, p.dynamic_offsets, p.string_data, p.push_constant_data⟩

/-! ### Encoder lifecycle (`CommandBuffer`, `get_encoder`, `finish`, debug markers) -/

/-- The typed error set of the encoder lifecycle operations. -/
inductive CommandEncoderError where
  | Invalid
  | NotRecording
deriving DecidableEq

/-- A recording session (`CommandBuffer<B>`).  `raw` is the vector of raw
backend command buffers, each a list of recorded backend commands;
`used_swap_chain` holds the swap-chain identity when a swap-chain image is in
use (the framebuffer component is irrelevant to the claims and omitted).
Fields not consulted by the embedded operations (device id, recorded thread
id, limits, private features, optional trace log) are omitted. -/
structure CommandBuffer where
  raw : List (List BackendCmd)
  is_recording : Bool
  trackers : TrackerSet
  used_swap_chain : Option Nat
deriving DecidableEq

/-- A swap chain, as consulted by `finish`: its currently acquired view
identity, if any. -/
structure SwapChain where
  acquired_view_id : Option RId
deriving DecidableEq

/-- Point update of a storage entry (the effect of mutating through
`storage.get_mut(id)`). -/
def supdate {α : Type} (s : Storage α) (k : Nat) (v : α) : Storage α :=
  s.map fun p => if p.1 = k then (k, v) else p

/-- The embedding of `CommandBuffer::get_encoder`: resolves the identity in
the command-buffer table, reporting `Invalid` when the lookup fails and
`NotRecording` when the session exists but is not recording. -/
def get_encoder (storage : Storage CommandBuffer) (id : Nat) :
    Except CommandEncoderError CommandBuffer :=
  match slookup id storage with
  | some cmd_buf => if cmd_buf.is_recording then .ok cmd_buf else .error .NotRecording
  | none => .error .Invalid

/-- The embedding of `command_encoder_finish`.  On the success path it clears
`is_recording` first and only then, when a swap chain is in use, looks up the
swap chain (indexing panics on a missing identity) and `expect`s its acquired
view id (panicking when the frame has already presented) before removing that
view from the session's view tracker; both panics therefore leave the cleared
`is_recording` flag behind in the table.  Returns the outcome together with
the (possibly updated) command-buffer table. -/
def command_encoder_finish (swap_chains : Storage SwapChain)
    (cmd_bufs : Storage CommandBuffer) (encoder_id : Nat) :
    Outcome CommandEncoderError Nat × Storage CommandBuffer :=
  match get_encoder cmd_bufs encoder_id with
  | .error e => (.err e, cmd_bufs)
  | .ok cmd_buf =>
    let cb1 := { cmd_buf with is_recording := false }
    match cb1.used_swap_chain with
    | none => (.ok encoder_id, supdate cmd_bufs encoder_id cb1)
    | some sc_id =>
      match slookup sc_id swap_chains with
      | none => (.panicked, supdate cmd_bufs encoder_id cb1)
      | some sc =>
        match sc.acquired_view_id with
        | none => (.panicked, supdate cmd_bufs encoder_id cb1)
        | some view_id =>
          let cb2 := { cb1 with trackers :=
            { cb1.trackers with views := cb1.trackers.views.filter fun v => decide (v ≠ view_id) } }
          (.ok encoder_id, supdate cmd_bufs encoder_id cb2)

/-- Replaces the last element of a list (`last_mut`), identity on `[]`. -/
def mutate_last {α : Type} (f : α → α) : List α → List α
  | [] => []
  | [a] => [f a]
  | a :: rest => a :: mutate_last f rest

/-- Shared body of the three debug-marker operations: resolve the encoder,
then `unwrap` the last raw command buffer (panicking when `raw` is empty) and
append the given backend command to it. -/
def debug_marker_op (cmd_bufs : Storage CommandBuffer) (encoder_id : Nat)
    (cmd : BackendCmd) : Outcome CommandEncoderError Unit × Storage CommandBuffer :=
  match get_encoder cmd_bufs encoder_id with
  | .error e => (.err e, cmd_bufs)
  | .ok cmd_buf =>
    match cmd_buf.raw with
    | [] => (.panicked, cmd_bufs)
    | _ => (.ok (), supdate cmd_bufs encoder_id
        { cmd_buf with raw := mutate_last (fun b => b ++ [cmd]) cmd_buf.raw })

/-- The embedding of `command_encoder_push_debug_group`: forwards
`begin_debug_marker(label, 0)` to the last raw command buffer. -/
def command_encoder_push_debug_group (cmd_bufs : Storage CommandBuffer)
    (encoder_id : Nat) (label : String) :
    Outcome CommandEncoderError Unit × Storage CommandBuffer :=
  debug_marker_op cmd_bufs encoder_id (BackendCmd.begin_debug_marker label 0)

/-- The embedding of `command_encoder_insert_debug_marker`: forwards
`insert_debug_marker(label, 0)` to the last raw command buffer. -/
def command_encoder_insert_debug_marker (cmd_bufs : Storage CommandBuffer)
    (encoder_id : Nat) (label : String) :
    Outcome CommandEncoderError Unit × Storage CommandBuffer :=
  debug_marker_op cmd_bufs encoder_id (BackendCmd.ins_debug_marker label 0)

/-- The embedding of `command_encoder_pop_debug_group`: forwards
`end_debug_marker()` to the last raw command buffer. -/
def command_encoder_pop_debug_group (cmd_bufs : Storage CommandBuffer)
    (encoder_id : Nat) :
    Outcome CommandEncoderError Unit × Storage CommandBuffer :=
  debug_marker_op cmd_bufs encoder_id BackendCmd.end_debug_marker

/-! ### Helper lemmas -/

/-- The length of the zero source is 64 words. -/
theorem PUSH_CONSTANT_CLEAR_ARRAY_length : PUSH_CONSTANT_CLEAR_ARRAY.length = 64 := rfl

/-- The chunk width chosen while the loop guard holds is between 1 and 64. -/
theorem chunk_width_pos (sw cw : Nat) (h : cw < sw) :
    1 ≤ min (sw - cw) PUSH_CONSTANT_CLEAR_ARRAY.length ∧
    min (sw - cw) PUSH_CONSTANT_CLEAR_ARRAY.length ≤ 64 := by
  rw [PUSH_CONSTANT_CLEAR_ARRAY_length]
  omega

/-- Any fuel of at least `size_words - count_words` steps yields the same
write list: the loop embedding is fuel-insensitive above that bound. -/
theorem push_constant_clear_go_fuel (offset sw : Nat) :
    ∀ f1 : Nat, ∀ f2 cw : Nat, sw - cw ≤ f1 → sw - cw ≤ f2 →
    push_constant_clear_go offset sw cw f1 = push_constant_clear_go offset sw cw f2 := by
  intro f1
  induction f1 with
  | zero =>
    intro f2 cw h1 _
    cases f2 with
    | zero => rfl
    | succ f2 =>
      simp only [push_constant_clear_go]
      rw [if_neg (by omega)]
  | succ f1 ih =>
    intro f2 cw h1 h2
    by_cases hlt : cw < sw
    · obtain ⟨hm1, hm64⟩ := chunk_width_pos sw cw hlt
      cases f2 with
      | zero => omega
      | succ f2 =>
        simp only [push_constant_clear_go, if_pos hlt]
        rw [ih f2 (cw + min (sw - cw) PUSH_CONSTANT_CLEAR_ARRAY.length) (by omega) (by omega)]
    · cases f2 with
      | zero => simp only [push_constant_clear_go]; rw [if_neg hlt]
      | succ f2 => simp only [push_constant_clear_go]; rw [if_neg hlt, if_neg hlt]

/-- With sufficient fuel, the loop performs `ceil((size_words - count_words) / 64)`
iterations. -/
theorem push_constant_clear_go_length (offset sw : Nat) :
    ∀ fuel cw : Nat, sw - cw ≤ fuel →
    (push_constant_clear_go offset sw cw fuel).length = (sw - cw + 63) / 64 := by
  intro fuel
  induction fuel with
  | zero =>
    intro cw h
    have : sw - cw = 0 := by omega
    simp [push_constant_clear_go, this]
  | succ fuel ih =>
    intro cw h
    by_cases hlt : cw < sw
    · obtain ⟨hm1, hm64⟩ := chunk_width_pos sw cw hlt
      simp only [push_constant_clear_go, if_pos hlt, List.length_cons]
      rw [ih (cw + min (sw - cw) PUSH_CONSTANT_CLEAR_ARRAY.length) (by omega)]
      rw [PUSH_CONSTANT_CLEAR_ARRAY_length] at *
      omega
    · simp only [push_constant_clear_go, if_neg hlt, List.length_nil]
      omega

/-- Every write produced by the loop is a zero-filled slice of at most 64
words. -/
theorem push_constant_clear_go_slices (offset sw : Nat) :
    ∀ fuel cw : Nat, ∀ w ∈ push_constant_clear_go offset sw cw fuel,
      w.2.length ≤ 64 ∧ w.2 = List.replicate w.2.length 0 := by
  intro fuel
  induction fuel with
  | zero => intro cw w hw; simp [push_constant_clear_go] at hw
  | succ fuel ih =>
    intro cw w hw
    simp only [push_constant_clear_go] at hw
    split at hw
    · rcases List.mem_cons.mp hw with hw | hw
      · subst hw
        rw [PUSH_CONSTANT_CLEAR_ARRAY, List.take_replicate]
        simp [List.length_replicate]
      · exact ih _ w hw
    · simp at hw

/-- With sufficient fuel and no `u32` wrap-around, the writes produced from
`count_words` are contiguous, non-overlapping, and exactly cover the byte
range `[offset + 4*count_words, offset + 4*size_words)`. -/
theorem push_constant_clear_go_chain (offset sw : Nat) :
    ∀ fuel cw : Nat, sw - cw ≤ fuel → cw ≤ sw → offset + 4 * sw < 4294967296 →
    chainCovers (offset + 4 * cw) (offset + 4 * sw)
      (push_constant_clear_go offset sw cw fuel) = true := by
  intro fuel
  induction fuel with
  | zero =>
    intro cw h hle _
    have : cw = sw := by omega
    subst this
    simp [push_constant_clear_go, chainCovers]
  | succ fuel ih =>
    intro cw h hle hov
    by_cases hlt : cw < sw
    · obtain ⟨hm1, hm64⟩ := chunk_width_pos sw cw hlt
      simp only [push_constant_clear_go, if_pos hlt, chainCovers, Bool.and_eq_true, beq_iff_eq]
      constructor
      · rw [Nat.mod_eq_of_lt (by omega)]
        omega
      · rw [PUSH_CONSTANT_CLEAR_ARRAY, List.take_replicate, List.length_replicate]
        have hmin : min (min (sw - cw) (List.replicate 64 (0 : Nat)).length) 64
            = min (sw - cw) PUSH_CONSTANT_CLEAR_ARRAY.length := by
          rw [List.length_replicate, PUSH_CONSTANT_CLEAR_ARRAY_length]
          omega
        rw [hmin]
        have := ih (cw + min (sw - cw) PUSH_CONSTANT_CLEAR_ARRAY.length) (by omega) (by omega) hov
        rw [PUSH_CONSTANT_CLEAR_ARRAY_length] at *
        have harith : offset + 4 * cw + 4 * min (sw - cw) 64
            = offset + 4 * (cw + min (sw - cw) 64) := by omega
        rw [harith]
        exact this
    · have heq : cw = sw := by omega
      subst heq
      simp only [push_constant_clear_go, if_neg hlt]
      simp [chainCovers]

/-- A key bound to a value in the left part of an appended association list is
bound to the same value in the whole list. -/
theorem slookup_append_left {κ α : Type} [DecidableEq κ] (k : κ) (u : α)
    (l1 l2 : List (κ × α)) (h : slookup k l1 = some u) :
    slookup k (l1 ++ l2) = some u := by
  induction l1 with
  | nil => simp [slookup] at h
  | cons p rest ih =>
    simp only [slookup, List.cons_append] at h ⊢
    by_cases hpk : p.1 = k
    · rw [if_pos hpk] at h ⊢; exact h
    · rw [if_neg hpk] at h ⊢; exact ih h

/-- Usage convergence of `merge_replace`: every identity present in `head`
ends up with `head`'s usage in the merged map. -/
theorem merge_replace_converges (base head : List (RId × Usage)) (i : RId) (u : Usage)
    (h : slookup i head = some u) :
    slookup i (merge_replace base head).2 = some u :=
  slookup_append_left i u head _ h

/-- Membership convergence of `merge_extend`: on success, every identity of
`head` is a member of the union. -/
theorem merge_extend_converges (base head r : List RId)
    (h : merge_extend base head = some r) : ∀ v ∈ head, v ∈ r := by
  unfold merge_extend at h
  split at h
  · exact absurd h (by simp)
  · injection h with h
    subst h
    intro v hv
    by_cases hb : v ∈ base
    · exact List.mem_append_left _ hb
    · refine List.mem_append_right _ ?_
      simp [List.mem_filter, hv, hb]

/-- Decomposition of a successful `insert_barriers` run: all six
`merge_extend`s and both barrier resolutions succeeded, exactly one
`pipeline_barrier` command was appended, and the resulting tracker set is
assembled from the merge results. -/
theorem insert_barriers_shape (raw : List BackendCmd) (base head : TrackerSet)
    (bg tg : ResourceStorage) (out : List BackendCmd × TrackerSet)
    (h : insert_barriers raw base head bg tg = some out) :
    ∃ views bind_groups samplers compute_pipes render_pipes bundles bbs tbs,
      merge_extend base.views head.views = some views ∧
      merge_extend base.bind_groups head.bind_groups = some bind_groups ∧
      merge_extend base.samplers head.samplers = some samplers ∧
      merge_extend base.compute_pipes head.compute_pipes = some compute_pipes ∧
      merge_extend base.render_pipes head.render_pipes = some render_pipes ∧
      merge_extend base.bundles head.bundles = some bundles ∧
      out = (raw ++ [BackendCmd.pipeline_barrier (all_buffer_stages ||| all_image_stages) 0 (bbs ++ tbs)],
        ⟨(merge_replace base.buffers head.buffers).2, (merge_replace base.textures head.textures).2,
         views, bind_groups, samplers, compute_pipes, render_pipes, bundles⟩) := by
  simp only [insert_barriers, Option.bind_eq_bind, Option.bind_eq_some] at h
  obtain ⟨views, hv, bind_groups, hbg, samplers, hs, compute_pipes, hcp, render_pipes, hrp,
    bundles, hbu, bbs, hbbs, tbs, htbs, hout⟩ := h
  exact ⟨views, bind_groups, samplers, compute_pipes, render_pipes, bundles, bbs, tbs,
    hv, hbg, hs, hcp, hrp, hbu, (Option.some_injective _ hout).symm ▸ rfl⟩

/-- Mapping a fallible function over a list succeeds when it succeeds on
every element. -/
theorem mapM_isSome_of_forall {α β : Type} (f : α → Option β) :
    ∀ l : List α, (∀ a ∈ l, (f a).isSome = true) → (l.mapM f).isSome = true := by
  intro l
  induction l with
  | nil => intro _; rfl
  | cons a rest ih =>
    intro h
    obtain ⟨b, hb⟩ := Option.isSome_iff_exists.mp (h a (List.mem_cons_self a rest))
    obtain ⟨bs, hbs⟩ := Option.isSome_iff_exists.mp (ih fun x hx => h x (List.mem_cons_of_mem a hx))
    rw [List.mapM_cons, hb, hbs]
    rfl

/-- Constructive converse of `insert_barriers_shape`: when all six
`merge_extend`s and both barrier resolutions succeed, `insert_barriers`
returns (does not panic) and appends the single conservative barrier
command. -/
theorem insert_barriers_build (raw : List BackendCmd) (base head : TrackerSet)
    (bg tg : ResourceStorage)
    (views bind_groups samplers compute_pipes render_pipes bundles : List RId)
    (bbs tbs : List HalBarrier)
    (hv : merge_extend base.views head.views = some views)
    (hbg : merge_extend base.bind_groups head.bind_groups = some bind_groups)
    (hs : merge_extend base.samplers head.samplers = some samplers)
    (hcp : merge_extend base.compute_pipes head.compute_pipes = some compute_pipes)
    (hrp : merge_extend base.render_pipes head.render_pipes = some render_pipes)
    (hbu : merge_extend base.bundles head.bundles = some bundles)
    (heb : List.mapM (fun p => Option.map (HalBarrier.buffer p) (ResourceStorage.index bg p.id))
      (merge_replace base.buffers head.buffers).1 = some bbs)
    (het : List.mapM (fun p => Option.map (HalBarrier.image p) (ResourceStorage.index tg p.id))
      (merge_replace base.textures head.textures).1 = some tbs) :
    insert_barriers raw base head bg tg =
      some (raw ++ [BackendCmd.pipeline_barrier (all_buffer_stages ||| all_image_stages) 0 (bbs ++ tbs)],
        ⟨(merge_replace base.buffers head.buffers).2, (merge_replace base.textures head.textures).2,
         views, bind_groups, samplers, compute_pipes, render_pipes, bundles⟩) := by
  simp only [insert_barriers, Option.bind_eq_bind, Option.bind_eq_some]
  exact ⟨views, hv, bind_groups, hbg, samplers, hs, compute_pipes, hcp, render_pipes, hrp,
    bundles, hbu, bbs, heb, tbs, het, rfl⟩

/-! ### Claim theorems -/

/-- C1 (corrected), counterexample: with `base = head = TrackerSet.empty` the
combined buffer+texture pending-transition sequence is empty, yet
`insert_barriers` still emits one backend pipeline-barrier command (with an
empty barrier list), so the command is not emitted "if and only if" the
sequence is non-empty: the source calls `raw.pipeline_barrier` without any
non-emptiness guard. -/
theorem C1_counterexample :
    (merge_replace TrackerSet.empty.buffers TrackerSet.empty.buffers).1 = [] ∧
    (merge_replace TrackerSet.empty.textures TrackerSet.empty.textures).1 = [] ∧
    insert_barriers [] TrackerSet.empty TrackerSet.empty [] [] =
      some ([BackendCmd.pipeline_barrier (all_buffer_stages ||| all_image_stages) 0 []],
        TrackerSet.empty) := by decide

/-- C1 (corrected, amended): whenever `insert_barriers` completes without
panicking it emits exactly one backend pipeline-barrier command —
unconditionally, whether or not the combined pending-transition sequence is
empty — and that command's stage mask is the conservative union
`all_buffer_stages() | all_image_stages()`, not a per-resource mask. -/
theorem C1_single_conservative_barrier (raw : List BackendCmd) (base head : TrackerSet)
    (bg tg : ResourceStorage) (out : List BackendCmd × TrackerSet)
    (h : insert_barriers raw base head bg tg = some out) :
    ∃ barriers, out.1 = raw ++
      [BackendCmd.pipeline_barrier (all_buffer_stages ||| all_image_stages) 0 barriers] := by
  obtain ⟨views, bind_groups, samplers, compute_pipes, render_pipes, bundles, bbs, tbs,
    hv, hbg, hs, hcp, hrp, hbu, hout⟩ := insert_barriers_shape _ _ _ _ _ _ h
  exact ⟨bbs ++ tbs, by rw [hout]⟩

/-- C1, witness: the amended theorem instantiated at empty trackers. -/
theorem C1_witness :
    ∃ barriers,
      (([BackendCmd.pipeline_barrier (all_buffer_stages ||| all_image_stages) 0 []],
        TrackerSet.empty) : List BackendCmd × TrackerSet).1
      = [] ++ [BackendCmd.pipeline_barrier (all_buffer_stages ||| all_image_stages) 0 barriers] :=
  C1_single_conservative_barrier [] TrackerSet.empty TrackerSet.empty [] []
    ([BackendCmd.pipeline_barrier (all_buffer_stages ||| all_image_stages) 0 []], TrackerSet.empty)
    (by decide)

/-- C2 (corrected), counterexample: at `offset = 0`, `size = 2` bytes the code
performs `size_bytes / 4 = 0` writes — not `ceil(2 / 256) = 1` — and covers
nothing of `[0, 2)`: the byte size is truncated to whole words before
chunking. -/
theorem C2_counterexample :
    push_constant_clear 0 2 = [] ∧ (2 + 255) / 256 = 1 ∧
    chainCovers 0 (0 + 2) (push_constant_clear 0 2) = false := by decide

/-- C2 (corrected, amended): for every byte offset and every byte size that is
a multiple of 4 (with `offset + size` in `u32` range, so byte offsets do not
wrap), `push_constant_clear` delivers writes whose slices are each at most 64
zero words, contiguous and non-overlapping, exactly covering
`[offset, offset + size)`, and the number of writes is `ceil(size / 256)`. -/
theorem C2_chunking (offset size_bytes : Nat) (h4 : size_bytes % 4 = 0)
    (hov : offset + size_bytes < 4294967296) :
    (push_constant_clear offset size_bytes).length = (size_bytes + 255) / 256
  ∧ (∀ w ∈ push_constant_clear offset size_bytes,
      w.2.length ≤ 64 ∧ w.2 = List.replicate w.2.length 0)
  ∧ chainCovers offset (offset + size_bytes) (push_constant_clear offset size_bytes) = true := by
  have h44 : 4 * (size_bytes / 4) = size_bytes := by omega
  refine ⟨?_, ?_, ?_⟩
  · rw [push_constant_clear, push_constant_clear_go_length _ _ _ 0 (by omega)]
    omega
  · exact fun w hw => push_constant_clear_go_slices _ _ _ _ w hw
  · have hc := push_constant_clear_go_chain offset (size_bytes / 4) (size_bytes / 4) 0
      (by omega) (by omega) (by omega)
    rw [push_constant_clear]
    simpa [h44] using hc

/-- C2, witness: the amended theorem instantiated at `offset = 4`,
`size = 520` bytes. -/
theorem C2_witness :
    520 % 4 = 0 ∧ 4 + 520 < 4294967296 ∧
    (push_constant_clear 4 520).length = (520 + 255) / 256 :=
  ⟨by decide, by decide, (C2_chunking 4 520 (by decide) (by decide)).1⟩

/-- C3 (confirmed, spec-modelled merges): after a successful `insert_barriers`
run, every resource identity present in `head` has converged in the updated
`base`: buffers and textures carry `head`'s usage (via `merge_replace`), and
every identity of the six `merge_extend` categories is a member of the updated
`base` tracker. -/
theorem C3_tracker_convergence (raw : List BackendCmd) (base head : TrackerSet)
    (bg tg : ResourceStorage) (raw2 : List BackendCmd) (base2 : TrackerSet)
    (h : insert_barriers raw base head bg tg = some (raw2, base2)) :
    (∀ i u, slookup i head.buffers = some u → slookup i base2.buffers = some u)
  ∧ (∀ i u, slookup i head.textures = some u → slookup i base2.textures = some u)
  ∧ (∀ v ∈ head.views, v ∈ base2.views)
  ∧ (∀ v ∈ head.bind_groups, v ∈ base2.bind_groups)
  ∧ (∀ v ∈ head.samplers, v ∈ base2.samplers)
  ∧ (∀ v ∈ head.compute_pipes, v ∈ base2.compute_pipes)
  ∧ (∀ v ∈ head.render_pipes, v ∈ base2.render_pipes)
  ∧ (∀ v ∈ head.bundles, v ∈ base2.bundles) := by
  obtain ⟨views, bind_groups, samplers, compute_pipes, render_pipes, bundles, bbs, tbs,
    hv, hbg, hs, hcp, hrp, hbu, hout⟩ := insert_barriers_shape _ _ _ _ _ _ h
  injection hout with hraw hbase
  subst hbase
  exact ⟨fun i u hi => merge_replace_converges _ _ i u hi,
    fun i u hi => merge_replace_converges _ _ i u hi,
    merge_extend_converges _ _ _ hv,
    merge_extend_converges _ _ _ hbg,
    merge_extend_converges _ _ _ hs,
    merge_extend_converges _ _ _ hcp,
    merge_extend_converges _ _ _ hrp,
    merge_extend_converges _ _ _ hbu⟩

/-- C3, witness: convergence instantiated at a head tracker holding one
view. -/
theorem C3_witness :
    ((3, 1) : RId) ∈ (TrackerSet.mk [] [] [(3, 1)] [] [] [] [] []).views :=
  (C3_tracker_convergence [] TrackerSet.empty
    (TrackerSet.mk [] [] [(3, 1)] [] [] [] [] []) [] []
    [BackendCmd.pipeline_barrier (all_buffer_stages ||| all_image_stages) 0 []]
    (TrackerSet.mk [] [] [(3, 1)] [] [] [] [] []) (by decide)).2.2.1 (3, 1) (by decide)

/-- C4 (confirmed): each of `finish`, `push_debug_group`,
`insert_debug_marker` and `pop_debug_group` returns `Invalid` when the
identity is unknown in the command-buffer table and `NotRecording` when the
session exists but `is_recording` is false, and on either error path returns
the table unchanged: no session field is mutated. -/
theorem C4_error_paths (scs : Storage SwapChain) (cbs : Storage CommandBuffer)
    (i : Nat) (label : String) :
    (slookup i cbs = none →
      command_encoder_finish scs cbs i = (.err .Invalid, cbs) ∧
      command_encoder_push_debug_group cbs i label = (.err .Invalid, cbs) ∧
      command_encoder_insert_debug_marker cbs i label = (.err .Invalid, cbs) ∧
      command_encoder_pop_debug_group cbs i = (.err .Invalid, cbs))
  ∧ (∀ cb, slookup i cbs = some cb → cb.is_recording = false →
      command_encoder_finish scs cbs i = (.err .NotRecording, cbs) ∧
      command_encoder_push_debug_group cbs i label = (.err .NotRecording, cbs) ∧
      command_encoder_insert_debug_marker cbs i label = (.err .NotRecording, cbs) ∧
      command_encoder_pop_debug_group cbs i = (.err .NotRecording, cbs)) := by
  constructor
  · intro hnone
    simp [command_encoder_finish, command_encoder_push_debug_group,
      command_encoder_insert_debug_marker, command_encoder_pop_debug_group,
      debug_marker_op, get_encoder, hnone]
  · intro cb hsome hrec
    simp [command_encoder_finish, command_encoder_push_debug_group,
      command_encoder_insert_debug_marker, command_encoder_pop_debug_group,
      debug_marker_op, get_encoder, hsome, hrec]

/-- C4, witness: `finish` on an empty table returns `Invalid` and leaves the
table unchanged. -/
theorem C4_witness :
    command_encoder_finish [] ([] : Storage CommandBuffer) 0
      = (.err .Invalid, ([] : Storage CommandBuffer)) :=
  ((C4_error_paths [] [] 0 "g").1 (by decide)).1

/-- C5 (confirmed): `finish` on a session in the `Recording` state — with the
in-use swap chain, when present, still holding its acquired view — succeeds,
returns the buffer's identity, sets `is_recording` to false, and removes
exactly the acquired view's identity from the session's view tracker when a
swap-chain image was in use; every other tracker category and every other
session field is unchanged (the record updates touch nothing else). -/
theorem C5_finish_success (scs : Storage SwapChain) (cbs : Storage CommandBuffer)
    (i : Nat) (cb : CommandBuffer) (hl : slookup i cbs = some cb)
    (hr : cb.is_recording = true) :
    (cb.used_swap_chain = none →
      command_encoder_finish scs cbs i =
        (.ok i, supdate cbs i { cb with is_recording := false }))
  ∧ (∀ sc_id sc view_id, cb.used_swap_chain = some sc_id →
      slookup sc_id scs = some sc → sc.acquired_view_id = some view_id →
      command_encoder_finish scs cbs i = (.ok i,
        supdate cbs i { cb with is_recording := false, trackers :=
          { cb.trackers with views :=
              cb.trackers.views.filter fun v => decide (v ≠ view_id) } })) := by
  constructor
  · intro hu
    simp [command_encoder_finish, get_encoder, hl, hr, hu]
  · intro sc_id sc view_id hu hsc hav
    simp [command_encoder_finish, get_encoder, hl, hr, hu, hsc, hav]

/-- C5, witness: a recording session with no swap-chain image in use is
finished: the identity is returned and only `is_recording` changes. -/
theorem C5_witness :
    command_encoder_finish [] [(0, CommandBuffer.mk [[]] true TrackerSet.empty none)] 0
      = (.ok 0, [(0, CommandBuffer.mk [[]] false TrackerSet.empty none)]) :=
  (C5_finish_success [] [(0, CommandBuffer.mk [[]] true TrackerSet.empty none)] 0
    (CommandBuffer.mk [[]] true TrackerSet.empty none) (by decide) (by decide)).1 (by decide)

/-- C6 (confirmed): converting an owned command stream to a borrowed view with
`as_ref` and back with `from_ref` is the identity, in both directions, and the
borrowed view's four slices equal the owned arrays element for element. -/
theorem C6_base_pass_roundtrip {C : Type} (p : BasePass C) (r : BasePassRef C) :
    BasePass.from_ref (BasePass.as_ref p) = p
  ∧ BasePass.as_ref (BasePass.from_ref r) = r
  ∧ (BasePass.as_ref p).commands = p.commands
  ∧ (BasePass.as_ref p).dynamic_offsets = p.dynamic_offsets
  ∧ (BasePass.as_ref p).string_data = p.string_data
  ∧ (BasePass.as_ref p).push_constant_data = p.push_constant_data :=
  ⟨rfl, rfl, rfl, rfl, rfl, rfl⟩

/-- C7 (confirmed): `push_constant_clear` at `offset = 0`, `size = 300` bytes
invokes the sink exactly twice — first `(0, 64 zero words)`, then
`(256, 11 zero words)` — and the two writes are contiguous, non-overlapping
and exactly cover bytes `[0, 300)`. -/
theorem C7_clear_300_bytes :
    push_constant_clear 0 300 = [(0, List.replicate 64 0), (256, List.replicate 11 0)]
  ∧ chainCovers 0 300 (push_constant_clear 0 300) = true := by decide

/-- C8 (confirmed, spec-modelled merges): a `merge_extend` failure in any
non-hazard category makes `insert_barriers` panic (`none` — the source
`unwrap`s; no typed error can be returned, the result carries no error
channel), and under the invariant that every `merge_extend` succeeds (and the
tracked resources are present in the guards) `insert_barriers` returns
normally. -/
theorem C8_merge_extend_fatal (raw : List BackendCmd) (base head : TrackerSet)
    (bg tg : ResourceStorage) :
    ((merge_extend base.views head.views = none ∨
      merge_extend base.bind_groups head.bind_groups = none ∨
      merge_extend base.samplers head.samplers = none ∨
      merge_extend base.compute_pipes head.compute_pipes = none ∨
      merge_extend base.render_pipes head.render_pipes = none ∨
      merge_extend base.bundles head.bundles = none) →
      insert_barriers raw base head bg tg = none)
  ∧ ((merge_extend base.views head.views).isSome = true →
      (merge_extend base.bind_groups head.bind_groups).isSome = true →
      (merge_extend base.samplers head.samplers).isSome = true →
      (merge_extend base.compute_pipes head.compute_pipes).isSome = true →
      (merge_extend base.render_pipes head.render_pipes).isSome = true →
      (merge_extend base.bundles head.bundles).isSome = true →
      (∀ p ∈ (merge_replace base.buffers head.buffers).1,
        (ResourceStorage.index bg p.id).isSome = true) →
      (∀ p ∈ (merge_replace base.textures head.textures).1,
        (ResourceStorage.index tg p.id).isSome = true) →
      (insert_barriers raw base head bg tg).isSome = true) := by
  constructor
  · intro hdisj
    cases hib : insert_barriers raw base head bg tg with
    | none => rfl
    | some out =>
      exfalso
      obtain ⟨views, bind_groups, samplers, compute_pipes, render_pipes, bundles, bbs, tbs,
        hv, hbg, hs, hcp, hrp, hbu, _⟩ := insert_barriers_shape _ _ _ _ _ _ hib
      rcases hdisj with hx | hx | hx | hx | hx | hx <;> simp_all
  · intro h1 h2 h3 h4 h5 h6 hb ht
    obtain ⟨v1, e1⟩ := Option.isSome_iff_exists.mp h1
    obtain ⟨v2, e2⟩ := Option.isSome_iff_exists.mp h2
    obtain ⟨v3, e3⟩ := Option.isSome_iff_exists.mp h3
    obtain ⟨v4, e4⟩ := Option.isSome_iff_exists.mp h4
    obtain ⟨v5, e5⟩ := Option.isSome_iff_exists.mp h5
    obtain ⟨v6, e6⟩ := Option.isSome_iff_exists.mp h6
    have hbb : (List.mapM (fun p => Option.map (HalBarrier.buffer p) (ResourceStorage.index bg p.id))
        (merge_replace base.buffers head.buffers).1).isSome = true :=
      mapM_isSome_of_forall _ _ (fun p hp => by
        obtain ⟨r, hr2⟩ := Option.isSome_iff_exists.mp (hb p hp)
        simp [hr2])
    have htt : (List.mapM (fun p => Option.map (HalBarrier.image p) (ResourceStorage.index tg p.id))
        (merge_replace base.textures head.textures).1).isSome = true :=
      mapM_isSome_of_forall _ _ (fun p hp => by
        obtain ⟨r, hr2⟩ := Option.isSome_iff_exists.mp (ht p hp)
        simp [hr2])
    obtain ⟨bbs, eb⟩ := Option.isSome_iff_exists.mp hbb
    obtain ⟨tbs, et⟩ := Option.isSome_iff_exists.mp htt
    rw [insert_barriers_build raw base head bg tg v1 v2 v3 v4 v5 v6 bbs tbs e1 e2 e3 e4 e5 e6 eb et]
    rfl

/-- C8, witness: with empty trackers every `merge_extend` succeeds and
`insert_barriers` returns normally. -/
theorem C8_witness :
    (insert_barriers [] TrackerSet.empty TrackerSet.empty [] []).isSome = true :=
  (C8_merge_extend_fatal [] TrackerSet.empty TrackerSet.empty [] []).2
    (by decide) (by decide) (by decide) (by decide) (by decide) (by decide)
    (by decide) (by decide)

/-- C9 (confirmed): after the `Recording` check passes, each of
`push_debug_group`, `insert_debug_marker` and `pop_debug_group` unwraps the
last element of the session's raw command-buffer vector: when that vector is
empty they panic instead of returning a typed error, and when it is non-empty
they succeed. -/
theorem C9_debug_marker_unwrap (cbs : Storage CommandBuffer) (i : Nat) (label : String)
    (cb : CommandBuffer) (hl : slookup i cbs = some cb) (hr : cb.is_recording = true) :
    (cb.raw = [] →
      (command_encoder_push_debug_group cbs i label).1 = .panicked ∧
      (command_encoder_insert_debug_marker cbs i label).1 = .panicked ∧
      (command_encoder_pop_debug_group cbs i).1 = .panicked)
  ∧ (cb.raw ≠ [] →
      (command_encoder_push_debug_group cbs i label).1 = .ok () ∧
      (command_encoder_insert_debug_marker cbs i label).1 = .ok () ∧
      (command_encoder_pop_debug_group cbs i).1 = .ok ()) := by
  constructor
  · intro hraw
    simp [command_encoder_push_debug_group, command_encoder_insert_debug_marker,
      command_encoder_pop_debug_group, debug_marker_op, get_encoder, hl, hr, hraw]
  · intro hraw
    obtain ⟨a, rest, hra⟩ : ∃ a rest, cb.raw = a :: rest := by
      cases hc : cb.raw with
      | nil => exact absurd hc hraw
      | cons a rest => exact ⟨a, rest, rfl⟩
    simp [command_encoder_push_debug_group, command_encoder_insert_debug_marker,
      command_encoder_pop_debug_group, debug_marker_op, get_encoder, hl, hr, hra]

/-- C9, witness: a recording session with an empty raw vector panics on
`push_debug_group`. -/
theorem C9_witness :
    (command_encoder_push_debug_group
      [(0, CommandBuffer.mk [] true TrackerSet.empty none)] 0 "g").1 = .panicked :=
  ((C9_debug_marker_unwrap [(0, CommandBuffer.mk [] true TrackerSet.empty none)] 0
    "g" (CommandBuffer.mk [] true TrackerSet.empty none)
    (by decide) (by decide)).1 (by decide)).1

/-- C10 (confirmed): `finish` on a recording session whose `used_swap_chain`
is set panics (the `expect`) when the referenced swap chain's
`acquired_view_id` is absent — the frame has already presented — and by that
point `is_recording` has already been set to false in the table, so the typed
error set `{Invalid, NotRecording}` is exhaustive only when any in-use frame
is still unpresented. -/
theorem C10_finish_presented_frame_panics (scs : Storage SwapChain)
    (cbs : Storage CommandBuffer) (i : Nat) (cb : CommandBuffer) (sc_id : Nat)
    (sc : SwapChain) (hl : slookup i cbs = some cb) (hr : cb.is_recording = true)
    (hu : cb.used_swap_chain = some sc_id) (hsc : slookup sc_id scs = some sc)
    (hav : sc.acquired_view_id = none) :
    command_encoder_finish scs cbs i =
      (.panicked, supdate cbs i { cb with is_recording := false }) := by
  simp [command_encoder_finish, get_encoder, hl, hr, hu, hsc, hav]

/-- C10, witness: a concrete recording session whose swap chain has already
presented: `finish` panics with the recording flag already cleared. -/
theorem C10_witness :
    command_encoder_finish [(5, SwapChain.mk none)]
      [(0, CommandBuffer.mk [[]] true TrackerSet.empty (some 5))] 0
      = (.panicked, [(0, CommandBuffer.mk [[]] false TrackerSet.empty (some 5))]) :=
  C10_finish_presented_frame_panics [(5, SwapChain.mk none)]
    [(0, CommandBuffer.mk [[]] true TrackerSet.empty (some 5))] 0
    (CommandBuffer.mk [[]] true TrackerSet.empty (some 5)) 5 (SwapChain.mk none)
    (by decide) (by decide) (by decide) (by decide) (by decide)

end Wgpu
